import Mathlib

/-!
Verification of the scanner serial-monitor / visualisation scripts:
line classification, sample parsing, aggregation, coordinate conversion
and persistence reconstruction, embedded shallowly from the Python sources
(serialmonitor.py, serialmonitor2.py, test.py, test2.py, test4.py).
Lines are modelled as lists of characters; Python floats parsed from the
stream are modelled as exact values (`PyVal`), and the trigonometric
conversion pipeline is modelled over the reals.
-/

set_option autoImplicit false

/-- Whitespace characters stripped by Python `str.strip` / `float` (ASCII). -/
def isPySpace (c : Char) : Bool :=
  c == ' ' || c == '\t' || c == '\n' || c == '\r' || c == '\x0b' || c == '\x0c'

/-- Models Python `str.strip`: drop leading and trailing whitespace. -/
def pyStrip (l : List Char) : List Char :=
  ((l.dropWhile isPySpace).reverse.dropWhile isPySpace).reverse

/-- The pattern is an initial segment of the text. -/
def startsWith : List Char → List Char → Bool
  | [], _ => true
  | _ :: _, [] => false
  | p :: ps, c :: cs => p == c && startsWith ps cs

/-- Models the Python substring test `pat in s` (contiguous occurrence). -/
def containsStr (pat : List Char) : List Char → Bool
  | [] => startsWith pat []
  | c :: rest => startsWith pat (c :: rest) || containsStr pat rest

/-- Models Python `s.split(",")`: split on every comma, keeping empty fields. -/
def splitComma : List Char → List (List Char)
  | [] => [[]]
  | c :: rest =>
    let r := splitComma rest
    if c == ',' then [] :: r
    else
      match r with
      | [] => [[c]]
      | h :: t => (c :: h) :: t

/-- Models Python `s.count(",")`. -/
def commaCount (l : List Char) : Nat :=
  (l.filter (fun c => c == ',')).length

/-- Value of a Python float: an exact number, an infinity, or a NaN. -/
inductive PyVal where
  | num (q : ℚ)
  | inf (neg : Bool)
  | nan
  deriving DecidableEq, Repr

/-- Numeric value of a digit list, most significant first. -/
def natFromDigits (ds : List Char) : ℕ :=
  ds.foldl (fun n c => n * 10 + (c.toNat - 48)) 0

/-- Continue a digit run, allowing single underscores between digits
(Python numeric-literal grammar). Returns the digits and the rest. -/
def digitsTail : List Char → List Char × List Char
  | '_' :: c :: rest =>
    if c.isDigit then
      let (ds, r) := digitsTail rest
      (c :: ds, r)
    else ([], '_' :: c :: rest)
  | c :: rest =>
    if c.isDigit then
      let (ds, r) := digitsTail rest
      (c :: ds, r)
    else ([], c :: rest)
  | [] => ([], [])

/-- Parse a nonempty digit run (with embedded underscores); `none` if the
text does not start with a digit. -/
def parseUDigits (l : List Char) : Option (List Char × List Char) :=
  match l with
  | c :: rest =>
    if c.isDigit then
      let (ds, r) := digitsTail rest
      some (c :: ds, r)
    else none
  | [] => none

/-- Optional leading sign; returns whether it was negative and the rest. -/
def parseSign : List Char → Bool × List Char
  | '+' :: r => (false, r)
  | '-' :: r => (true, r)
  | l => (false, l)

/-- Consume the given word case-insensitively; return the rest on success. -/
def matchCI : List Char → List Char → Option (List Char)
  | [], s => some s
  | p :: ps, c :: cs => if p.toLower == c.toLower then matchCI ps cs else none
  | _ :: _, [] => none

/-- Word matches the whole remaining text up to trailing whitespace. -/
def checkWord (w : List Char) (l : List Char) : Bool :=
  match matchCI w l with
  | some r => r.all isPySpace
  | none => false

/-- Mantissa of a float literal: integer digits, fraction digits, rest.
Accepts `d+`, `d+.`, `d+.d+` and `.d+` shapes. -/
def parseMantissa (l : List Char) : Option (List Char × List Char × List Char) :=
  match parseUDigits l with
  | some (ds, r) =>
    match r with
    | '.' :: r2 =>
      match parseUDigits r2 with
      | some (fs, r3) => some (ds, fs, r3)
      | none => some (ds, [], r2)
    | _ => some (ds, [], r)
  | none =>
    match l with
    | '.' :: r2 =>
      match parseUDigits r2 with
      | some (fs, r3) => some ([], fs, r3)
      | none => none
    | _ => none

/-- Optional exponent part `e`/`E` sign digits; returns the exponent value
and the unconsumed rest (unchanged when no well-formed exponent follows). -/
def parseExponent (l : List Char) : ℤ × List Char :=
  match l with
  | c :: r =>
    if c == 'e' || c == 'E' then
      let (negE, r1) := parseSign r
      match parseUDigits r1 with
      | some (ds, r2) =>
        ((if negE then -(natFromDigits ds : ℤ) else (natFromDigits ds : ℤ)), r2)
      | none => (0, l)
    else (0, l)
  | [] => (0, l)

/-- Models Python `float(field)`: optional surrounding whitespace and sign,
then a decimal/scientific literal (with underscores between digits), or the
case-insensitive words inf, infinity, nan. `none` models a `ValueError`. -/
def pyFloat? (field : List Char) : Option PyVal :=
  let l0 := field.dropWhile isPySpace
  let (neg, l1) := parseSign l0
  if checkWord ("infinity".toList) l1 then some (PyVal.inf neg)
  else if checkWord ("inf".toList) l1 then some (PyVal.inf neg)
  else if checkWord ("nan".toList) l1 then some PyVal.nan
  else
    match parseMantissa l1 with
    | some (ids, fds, r) =>
      let (ex, r2) := parseExponent r
      if r2.all isPySpace then
        let mant : ℤ := (natFromDigits (ids ++ fds) : ℤ)
        let sm : ℤ := if neg then -mant else mant
        let e : ℤ := ex - (fds.length : ℤ)
        if 0 ≤ e then some (PyVal.num (mkRat (sm * ((10 : ℕ) ^ e.toNat : ℕ)) 1))
        else some (PyVal.num (mkRat sm ((10 : ℕ) ^ (-e).toNat)))
      else none
    | none => none

/-! ## serialmonitor2.py: 5-field cylindrical capture -/

/-- Boot/status substrings rejected by `is_valid_data_line`
(serialmonitor2.py). -/
def bootMessages : List (List Char) :=
  ["SPIWP:".toList, "clk_drv:".toList, "mode:".toList, "load:".toList,
   "Scanner initialized".toList, "Starting full 3D scan".toList,
   "Scanning at vertical angle".toList]

/-- Models serialmonitor2.py `is_valid_data_line`: reject lines holding a
boot/status substring, then require exactly 5 comma-separated fields that
all parse as floats. -/
def is_valid_data_line (l : List Char) : Bool :=
  if bootMessages.any (fun m => containsStr m l) then false
  else
    let values := splitComma l
    if values.length = 5 then values.all (fun v => (pyFloat? v).isSome)
    else false

/-- A cartesian point as stored by the monitors: an (x, y, z) value triple. -/
abbrev P3 := PyVal × PyVal × PyVal

/-- A raw 5-field record (x, y, z, vertical angle, vertical distance). -/
structure Raw5 where
  x : PyVal
  y : PyVal
  z : PyVal
  va : PyVal
  vd : PyVal
  deriving DecidableEq, Repr

/-- Aggregated collections of serialmonitor2.py `read_scanner_data`:
the flat point list, the per-vertical-angle grouping (insertion-ordered
association list, matching a Python `defaultdict`), and the raw tuples. -/
structure AggState where
  pointsList : List P3
  pointsByAngle : List (PyVal × List P3)
  rawData : List Raw5
  deriving DecidableEq, Repr

/-- The empty aggregate at session start. -/
def initAgg : AggState := ⟨[], [], []⟩

/-- Append a value to the group of the given key, creating the group at the
end when absent (models `defaultdict(list)` indexing plus `append`). -/
def assocAppend (m : List (PyVal × List P3)) (k : PyVal) (v : P3) :
    List (PyVal × List P3) :=
  match m with
  | [] => [(k, [v])]
  | (a, g) :: t => if a = k then (a, g ++ [v]) :: t else (a, g) :: assocAppend t k v

/-- Group of a key in the association list ([] when absent). -/
def groupLookup (m : List (PyVal × List P3)) (k : PyVal) : List P3 :=
  match m with
  | [] => []
  | (a, g) :: t => if a = k then g else groupLookup t k

/-- Total number of points held across all groups. -/
def groupSizes (m : List (PyVal × List P3)) : ℕ :=
  (m.map (fun e => e.2.length)).sum

/-- Models the three appends of serialmonitor2.py `read_scanner_data` on an
accepted sample: flat list, per-angle group, raw log. -/
def accept (st : AggState) (s : Raw5) : AggState :=
  { pointsList := st.pointsList ++ [(s.x, s.y, s.z)]
    pointsByAngle := assocAppend st.pointsByAngle s.va (s.x, s.y, s.z)
    rawData := st.rawData ++ [s] }

/-- Models `map(float, line.split(","))` unpacked into 5 names. -/
def parse5 (vs : List (List Char)) : Option Raw5 :=
  match vs.mapM pyFloat? with
  | some [a, b, c, d, e] => some ⟨a, b, c, d, e⟩
  | _ => none

/-- One iteration of the serialmonitor2.py read loop on a (stripped) line:
skip empty and invalid lines, otherwise parse the 5 floats and aggregate
(a parse failure is caught and skipped). -/
def processScannerLine (st : AggState) (l : List Char) : AggState :=
  if l = [] then st
  else if is_valid_data_line l then
    match parse5 (splitComma l) with
    | some s => accept st s
    | none => st
  else st

/-- Models serialmonitor2.py `read_scanner_data` over a finite stream of
lines: every line is processed in order; the loop itself never stops on a
line (only the external interrupt ends it, returning the collections). -/
def read_scanner_data (lines : List (List Char)) : AggState :=
  lines.foldl processScannerLine initAgg

/-- Status phrases the serialmonitor2.py skip branch reports to the user. -/
def reportPhrases : List (List Char) :=
  ["Starting full 3D scan".toList, "Scan complete!".toList,
   "Scanning at vertical angle".toList]

/-- Classification of a line by the serialmonitor2.py loop: an accepted
data line, a reported status line, or silently discarded noise. -/
inductive LineClass where
  | data
  | status
  | noise
  deriving DecidableEq, Repr

/-- Three-way classification as performed by the serialmonitor2.py loop:
valid data lines are data; among skipped lines, those holding a reported
status phrase are status, the rest are noise. -/
def classify (l : List Char) : LineClass :=
  if is_valid_data_line l then LineClass.data
  else if reportPhrases.any (fun m => containsStr m l) then LineClass.status
  else LineClass.noise

/-! ## serialmonitor.py: 4-field polar capture -/

/-- A 4-field polar sample (distance, platform angle, vertical angle,
height) as parsed by serialmonitor.py. -/
abbrev S4 := PyVal × PyVal × PyVal × PyVal

/-- Models the four `float(values[i])` conversions of serialmonitor.py. -/
def parse4 (vs : List (List Char)) : Option S4 :=
  match vs.mapM pyFloat? with
  | some [a, b, c, d] => some (a, b, c, d)
  | _ => none

/-- One iteration of the serialmonitor.py read loop on a (stripped) line:
a non-empty line with exactly 4 comma-separated fields that all parse as
floats is appended; every other line is skipped (parse errors are caught).
No status or banner check exists on this path. -/
def serialLineStep (pts : List S4) (l : List Char) : List S4 :=
  if l = [] then pts
  else if (splitComma l).length = 4 then
    match parse4 (splitComma l) with
    | some s => pts ++ [s]
    | none => pts
  else pts

/-- How a serialmonitor.py session ends: the user interrupt (the only stop
the loop handles, returning the points) or an uncaught transport fault from
the serial read, which propagates as an exception past the loop. -/
inductive SessionEnd where
  | interrupt
  | fault
  deriving DecidableEq, Repr

/-- Models serialmonitor.py `read_serial_data` over the lines received
before the session ends: on interrupt the accumulated points are returned;
on an uncaught transport fault the exception propagates and the caller
receives no points. -/
def read_serial_data (lines : List (List Char)) (stop : SessionEnd) :
    Except Unit (List S4) :=
  match stop with
  | SessionEnd.interrupt => Except.ok (lines.foldl serialLineStep [])
  | SessionEnd.fault => Except.error ()

/-! ## test4.py: 3-field cartesian session with completion and failure -/

/-- Initialization/status substrings checked first by test4.py `read_data`. -/
def t4StatusWords : List (List Char) :=
  ["initialized".toList, "configured".toList, "detected".toList,
   "starting".toList, "ready".toList, "Failed".toList]

/-- Outcome of one test4.py `read_data` line: a status message, a device
failure, scan completion, a parsed 3-field point, or an ignored line. -/
inductive T4Line where
  | statusMsg
  | failedMsg
  | completeMsg
  | point (p : P3)
  | ignored
  deriving DecidableEq, Repr

/-- The decision chain of test4.py `read_data`: status words first (with
"Failed" terminal), then "Scan complete", then a 3-field parse attempted
only when the line holds exactly two commas. -/
def t4Classify (l : List Char) : T4Line :=
  if t4StatusWords.any (fun m => containsStr m l) then
    if containsStr ("Failed".toList) l then T4Line.failedMsg else T4Line.statusMsg
  else if containsStr ("Scan complete".toList) l then T4Line.completeMsg
  else if commaCount l = 2 then
    match (splitComma l).mapM pyFloat? with
    | some [a, b, c] => T4Line.point (a, b, c)
    | _ => T4Line.ignored
  else T4Line.ignored

/-- One test4.py `read_data` call on a line: the updated point list and
whether the session keeps scanning (false on failure or completion). -/
def read_data_step (pts : List P3) (l : List Char) : List P3 × Bool :=
  match t4Classify l with
  | T4Line.statusMsg => (pts, true)
  | T4Line.failedMsg => (pts, false)
  | T4Line.completeMsg => (pts, false)
  | T4Line.point p => (pts ++ [p], true)
  | T4Line.ignored => (pts, true)

/-- A test4.py session over a line stream: lines are consumed until one
stops the scan; the flag records whether the session is still scanning. -/
def read_data_run : List (List Char) → List P3 → List P3 × Bool
  | [], pts => (pts, true)
  | l :: ls, pts =>
    match read_data_step pts l with
    | (pts2, true) => read_data_run ls pts2
    | (pts2, false) => (pts2, false)

/-- The lines of the completion scenario. -/
def scenarioLines : List (List Char) :=
  ["Scanner initialized".toList, "S".toList, "10,20,30,5,45".toList,
   "Scan complete!".toList]

/-! ## test.py / test2.py: coordinate conversion over the reals -/

/-- Models `np.radians`: degrees to radians. -/
noncomputable def npRadians (d : ℝ) : ℝ := d * Real.pi / 180

/-- Models `np.degrees`: radians to degrees. -/
noncomputable def npDegrees (r : ℝ) : ℝ := r * 180 / Real.pi

/-- Models `np.arctan2 y x`: the angle of (x, y), in (-pi, pi]. -/
noncomputable def npAtan2 (y x : ℝ) : ℝ :=
  if 0 < x then Real.arctan (y / x)
  else if x < 0 then
    if 0 ≤ y then Real.arctan (y / x) + Real.pi
    else Real.arctan (y / x) - Real.pi
  else if 0 < y then Real.pi / 2
  else if y < 0 then -(Real.pi / 2)
  else 0

/-- Body of `convert_to_cartesian` (test.py and test2.py) on one sample
(distance, platform angle, vertical angle, height): both angles are
converted to radians, x and y come from distance and the platform angle,
and z is the height taken literally (the vertical radians are unused, as
in the source). -/
noncomputable def convertPoint : ℝ × ℝ × ℝ × ℝ → ℝ × ℝ × ℝ :=
  fun (distance, platform_angle, vertical_angle, height) =>
    let platform_rad := npRadians platform_angle
    let vertical_rad := npRadians vertical_angle
    (distance * Real.cos platform_rad, distance * Real.sin platform_rad, height)

/-- Models `convert_to_cartesian`: the conversion mapped over the samples. -/
noncomputable def convert_to_cartesian (ps : List (ℝ × ℝ × ℝ × ℝ)) :
    List (ℝ × ℝ × ℝ) :=
  ps.map convertPoint

/-- The inverse step of test2.py `read_points_from_file` on one raw tuple
(x, y, z, vertical angle, vertical distance): the source computes
`distance = sqrt(x*x + y*y)` and the normalized platform angle, but then
appends `(vert_dist, platform_angle, vert_angle, z)` — the first field of
the reconstructed sample is the vertical distance, not the computed
distance, exactly as in the source. -/
noncomputable def invertRaw (x y z va vd : ℝ) : ℝ × ℝ × ℝ × ℝ :=
  let distance := Real.sqrt (x * x + y * y)
  let platform_angle0 := npDegrees (npAtan2 y x)
  let platform_angle :=
    if platform_angle0 < 0 then platform_angle0 + 360 else platform_angle0
  (vd, platform_angle, va, z)

/-- Persistence round trip at the tuple level: the saved raw 5-tuples are
reconstructed into polar samples (test2.py `read_points_from_file`) and
re-run through the forward conversion. The text rendering of the Raw Data
section (`repr` out, `eval` back) is the identity on float 5-tuples, so it
is elided. -/
noncomputable def roundTripRaw (raws : List (ℝ × ℝ × ℝ × ℝ × ℝ)) :
    List (ℝ × ℝ × ℝ) :=
  convert_to_cartesian
    (raws.map (fun r => invertRaw r.1 r.2.1 r.2.2.1 r.2.2.2.1 r.2.2.2.2))

/-! ## test2.py: reconstruction from the saved file -/

/-- Models `eval(line.strip())` on the tuple text the Raw Data section
holds: a parenthesised comma-separated list of finite numeric literals
(the shape `repr` emits for a tuple of floats). Any other text - including
an `inf`/`nan` literal, which `eval` rejects as an undefined name - yields
`none`, modelling the exception path. -/
def parseTupleLine (l : List Char) : Option (List ℚ) :=
  match pyStrip l with
  | '(' :: rest =>
    match rest.reverse with
    | ')' :: mid =>
      (splitComma mid.reverse).mapM (fun v =>
        match pyFloat? v with
        | some (PyVal.num q) => some q
        | _ => none)
    | _ => none
  | _ => none

/-- The section marker test2.py searches for before reading raw tuples. -/
def rawMarker : List Char := "=== Raw Data".toList

/-- The line loop of test2.py `read_points_from_file`: lines before the
`=== Raw Data` marker are skipped; after it, every non-blank line holding a
comma must evaluate to a 5-tuple, which is inverted and collected; any
failure raises, is caught by the surrounding handler, and the whole call
returns the empty list — accumulated samples included. -/
noncomputable def readPointsLoop :
    List (List Char) → Bool → List (ℝ × ℝ × ℝ × ℝ) → List (ℝ × ℝ × ℝ × ℝ)
  | [], _, acc => acc
  | l :: ls, started, acc =>
    if containsStr rawMarker l then readPointsLoop ls true acc
    else if started && !(pyStrip l).isEmpty && l.contains ',' then
      match parseTupleLine l with
      | some [x, y, z, va, vd] =>
        readPointsLoop ls started
          (acc ++ [invertRaw (x : ℝ) (y : ℝ) (z : ℝ) (va : ℝ) (vd : ℝ)])
      | _ => []
    else readPointsLoop ls started acc

/-- Models test2.py `read_points_from_file`: a missing or unreadable file
is caught and yields the empty list; otherwise the saved lines are walked
by `readPointsLoop`. -/
noncomputable def read_points_from_file
    (contents : Except Unit (List (List Char))) : List (ℝ × ℝ × ℝ × ℝ) :=
  match contents with
  | Except.error _ => []
  | Except.ok lines => readPointsLoop lines false []

/-! ## Helper lemmas -/

/-- A skipped (invalid) line leaves every collection unchanged. -/
lemma skip_of_invalid (st : AggState) (l : List Char)
    (hv : is_valid_data_line l = false) : processScannerLine st l = st := by
  simp [processScannerLine, hv]

/-- Empty, wrongly-shaped or non-numeric lines are not valid data lines
when no boot substring short-circuits the test first. -/
lemma invalid_of_noise (l : List Char)
    (hb : bootMessages.any (fun m => containsStr m l) = false)
    (hn : l = [] ∨ (splitComma l).length ≠ 5 ∨ ∃ v ∈ splitComma l, pyFloat? v = none) :
    is_valid_data_line l = false := by
  rcases hn with rfl | hn | ⟨v, hv, hvp⟩
  · decide
  · simp [is_valid_data_line, hb, hn]
  · simp [is_valid_data_line, hb]
    intro hlen
    refine ⟨v, hv, ?_⟩
    simp [hvp]

/-- A line matching a test4.py status word classifies as a status (or, for
"Failed", a failure), before any numeric parse is attempted. -/
lemma t4_status_classify (l : List Char)
    (h : t4StatusWords.any (fun m => containsStr m l) = true) :
    t4Classify l = T4Line.statusMsg ∨ t4Classify l = T4Line.failedMsg := by
  by_cases hf : containsStr ("Failed".toList) l = true
  · right; simp [t4Classify, h, hf]; exact hf
  · left; simp [t4Classify, h, hf]; simpa using hf

/-- Looking a key up after a grouped append: the old group, extended by the
new value exactly at the appended key. -/
lemma groupLookup_assocAppend (m : List (PyVal × List P3)) (k : PyVal) (v : P3)
    (k2 : PyVal) :
    groupLookup (assocAppend m k v) k2 =
      groupLookup m k2 ++ (if k = k2 then [v] else []) := by
  induction m with
  | nil =>
    by_cases h : k = k2 <;> simp [assocAppend, groupLookup, h]
  | cons hd t ih =>
    obtain ⟨a, g⟩ := hd
    by_cases hak : a = k
    · subst hak
      by_cases h2 : a = k2 <;> simp [assocAppend, groupLookup, h2]
    · by_cases h2 : a = k2
      · subst h2
        have : ¬(k = a) := fun h => hak h.symm
        simp [assocAppend, groupLookup, hak, this]
      · simp [assocAppend, groupLookup, hak, h2, ih]

/-- A grouped append grows the total group size by exactly one. -/
lemma groupSizes_assocAppend (m : List (PyVal × List P3)) (k : PyVal) (v : P3) :
    groupSizes (assocAppend m k v) = groupSizes m + 1 := by
  induction m with
  | nil => simp [assocAppend, groupSizes]
  | cons hd t ih =>
    obtain ⟨a, g⟩ := hd
    by_cases hak : a = k <;>
      simp [assocAppend, groupSizes, hak] <;>
      simp [groupSizes] at ih <;> omega

/-- Accepting a batch of samples appends their points to the flat list. -/
lemma foldl_accept_points (ss : List Raw5) :
    ∀ st : AggState, (ss.foldl accept st).pointsList =
      st.pointsList ++ ss.map (fun s => (s.x, s.y, s.z)) := by
  induction ss with
  | nil => simp
  | cons s t ih => intro st; simp [ih, accept]

/-- Accepting a batch of samples appends them to the raw log. -/
lemma foldl_accept_raw (ss : List Raw5) :
    ∀ st : AggState, (ss.foldl accept st).rawData = st.rawData ++ ss := by
  induction ss with
  | nil => simp
  | cons s t ih => intro st; simp [ih, accept]

/-- Accepting a batch of samples extends each vertical-angle group by the
points of exactly the samples carrying that angle, in arrival order. -/
lemma foldl_accept_group (ss : List Raw5) :
    ∀ (st : AggState) (va : PyVal),
      groupLookup (ss.foldl accept st).pointsByAngle va =
        groupLookup st.pointsByAngle va ++
          ((ss.filter (fun s => decide (s.va = va))).map (fun s => (s.x, s.y, s.z))) := by
  induction ss with
  | nil => simp
  | cons s t ih =>
    intro st va
    by_cases h : s.va = va
    · simp [ih, accept, groupLookup_assocAppend, h, List.filter_cons]
    · simp [ih, accept, groupLookup_assocAppend, h, List.filter_cons]

/-- Accepting a batch of samples grows the total group size by the batch
length. -/
lemma foldl_accept_sizes (ss : List Raw5) :
    ∀ st : AggState, groupSizes (ss.foldl accept st).pointsByAngle =
      groupSizes st.pointsByAngle + ss.length := by
  induction ss with
  | nil => simp
  | cons s t ih =>
    intro st
    simp [ih, accept, groupSizes_assocAppend]
    omega

/-- One serialmonitor.py loop iteration only ever appends to the points. -/
lemma serialLineStep_extends (pts : List S4) (l : List Char) :
    pts <+: serialLineStep pts l := by
  unfold serialLineStep
  split
  · exact List.prefix_rfl
  · split
    · rcases h : parse4 (splitComma l) with _ | s <;> simp [h]
    · exact List.prefix_rfl

/-- The points held at any moment stay a prefix of the points held after
any further lines are consumed. -/
lemma foldl_serialLineStep_extends (ls : List (List Char)) :
    ∀ pts : List S4, pts <+: ls.foldl serialLineStep pts := by
  induction ls with
  | nil => intro pts; exact List.prefix_rfl
  | cons l t ih =>
    intro pts
    exact (serialLineStep_extends pts l).trans (ih _)

/-! ## Claim theorems -/

/-- Claim C1 (confirmed): the forward conversion of a 4-field polar sample
returns (distance·cos(radians(platform angle)),
distance·sin(radians(platform angle)), height) — degrees are converted to
radians, z is the height literally, the vertical angle affects nothing —
and the four scenario inputs map to (80,0,0), (0,80,50), (-80,0,100),
(0,-80,150) exactly. -/
theorem c1_forward_conversion :
    (∀ d pa va va2 h : ℝ, convertPoint (d, pa, va, h) = convertPoint (d, pa, va2, h))
    ∧ (∀ d pa va h : ℝ, convertPoint (d, pa, va, h) =
        (d * Real.cos (pa * Real.pi / 180), d * Real.sin (pa * Real.pi / 180), h))
    ∧ convert_to_cartesian
        [(80, 0, 0, 0), (80, 90, 0, 50), (80, 180, 0, 100), (80, 270, 0, 150)] =
        [(80, 0, 0), (0, 80, 50), (-80, 0, 100), (0, -80, 150)] := by
  refine ⟨fun d pa va va2 h => rfl, fun d pa va h => rfl, ?_⟩
  have h0 : (0 : ℝ) * Real.pi / 180 = 0 := by ring
  have h90 : (90 : ℝ) * Real.pi / 180 = Real.pi / 2 := by ring
  have h180 : (180 : ℝ) * Real.pi / 180 = Real.pi := by ring
  have h270 : (270 : ℝ) * Real.pi / 180 = Real.pi + Real.pi / 2 := by ring
  simp [convert_to_cartesian, convertPoint, npRadians, h0, h90, h180, h270,
    Real.cos_add, Real.sin_add]

/-- Claim C2 (code bug): on the raw tuple (5, 0, 0, 0, 99) the
reconstruction returns 99 — the vertical distance — in the distance field,
while sqrt(x²+y²) is 5: `read_points_from_file` computes the distance but
appends `vert_dist` in its place. -/
theorem c2_distance_bug :
    (invertRaw 5 0 0 0 99).1 = 99 ∧ Real.sqrt (5 * 5 + 0 * 0) = 5 ∧ (99 : ℝ) ≠ 5 := by
  refine ⟨rfl, ?_, by norm_num⟩
  rw [show (5 : ℝ) * 5 + 0 * 0 = 5 ^ 2 by norm_num]
  exact Real.sqrt_sq (by norm_num)

/-- Claim C3 (code bug): the persistence round trip is not the identity:
the saved collection whose flat points are [(5, 0, 0)] — raw tuple
(5, 0, 0, 0, 99) — reconstructs and re-converts to [(99, 0, 0)], because
the reconstruction uses the vertical distance as the polar distance. -/
theorem c3_roundtrip_bug :
    roundTripRaw [(5, 0, 0, 0, 99)] = [((99 : ℝ), 0, 0)] ∧
    ((99 : ℝ), (0 : ℝ), (0 : ℝ)) ≠ ((5 : ℝ), 0, 0) := by
  constructor
  · have hinv : invertRaw (5 : ℝ) 0 0 0 99 = (99, 0, 0, 0) := by
      simp [invertRaw, npAtan2, npDegrees, Real.arctan_zero]
    simp [roundTripRaw, convert_to_cartesian, hinv, convertPoint, npRadians]
  · intro h
    have := congrArg (fun p => p.1) h
    norm_num at this

/-- Claim C4 (confirmed): a line holding a configured status/banner
substring is never classified as a data line — the substring check runs
before any numeric parsing — in both the 5-field classifier (rejected and
skipped with collections untouched) and the test4.py session (status
branch taken, no point appended). -/
theorem c4_status_banner_precedence :
    (∀ l : List Char, bootMessages.any (fun m => containsStr m l) = true →
        is_valid_data_line l = false)
    ∧ (∀ (st : AggState) (l : List Char),
        bootMessages.any (fun m => containsStr m l) = true →
        processScannerLine st l = st)
    ∧ (∀ l : List Char, t4StatusWords.any (fun m => containsStr m l) = true →
        (t4Classify l = T4Line.statusMsg ∨ t4Classify l = T4Line.failedMsg))
    ∧ (∀ (pts : List P3) (l : List Char),
        t4StatusWords.any (fun m => containsStr m l) = true →
        (read_data_step pts l).1 = pts) := by
  refine ⟨?_, ?_, t4_status_classify, ?_⟩
  · intro l h
    simp [is_valid_data_line, h]
  · intro st l h
    simp [processScannerLine, is_valid_data_line, h]
  · intro pts l h
    rcases t4_status_classify l h with hc | hc <;> simp [read_data_step, hc]

/-- Witness for C4 at a boot banner with numeric fields and at a status
line. -/
theorem c4_witness :
    is_valid_data_line ("SPIWP:0xee,1,2,3,4".toList) = false
    ∧ processScannerLine initAgg ("SPIWP:0xee,1,2,3,4".toList) = initAgg
    ∧ (t4Classify ("Scanner ready".toList) = T4Line.statusMsg
        ∨ t4Classify ("Scanner ready".toList) = T4Line.failedMsg)
    ∧ (read_data_step [] ("Scanner ready".toList)).1 = [] :=
  ⟨c4_status_banner_precedence.1 _ (by decide),
   c4_status_banner_precedence.2.1 _ _ (by decide),
   c4_status_banner_precedence.2.2.1 _ (by decide),
   c4_status_banner_precedence.2.2.2 _ _ (by decide)⟩

/-- Claim C5 (confirmed): a line that is empty, has a field count other
than 5, or has a non-float field — and matches no status substring — is
noise: it is skipped silently and the collections are unchanged; and the
particular line `10.0,clk_drv:,mode:` is noise, not a data line, and
likewise leaves every state unchanged. -/
theorem c5_noise_skipped :
    (∀ (st : AggState) (l : List Char),
      bootMessages.any (fun m => containsStr m l) = false →
      reportPhrases.any (fun m => containsStr m l) = false →
      (l = [] ∨ (splitComma l).length ≠ 5 ∨ ∃ v ∈ splitComma l, pyFloat? v = none) →
      classify l = LineClass.noise ∧ processScannerLine st l = st)
    ∧ classify ("10.0,clk_drv:,mode:".toList) = LineClass.noise
    ∧ ∀ st : AggState, processScannerLine st ("10.0,clk_drv:,mode:".toList) = st := by
  refine ⟨?_, by decide, ?_⟩
  · intro st l hb hr hn
    have hv := invalid_of_noise l hb hn
    constructor
    · simp [classify, hv, hr]
    · exact skip_of_invalid st l hv
  · intro st
    exact skip_of_invalid st _ (by decide)

/-- Witness for C5 at the 3-field line `1,2,3` and the scenario-B line. -/
theorem c5_witness :
    (classify ("1,2,3".toList) = LineClass.noise
      ∧ processScannerLine initAgg ("1,2,3".toList) = initAgg)
    ∧ classify ("10.0,clk_drv:,mode:".toList) = LineClass.noise
    ∧ processScannerLine initAgg ("10.0,clk_drv:,mode:".toList) = initAgg :=
  ⟨c5_noise_skipped.1 initAgg _ (by decide) (by decide)
      (Or.inr (Or.inl (by decide))),
   c5_noise_skipped.2.1,
   c5_noise_skipped.2.2 initAgg⟩

/-- Counterexample to claim C6: on the scenario lines, the session that
does stop on the scan-complete message (test4.py) ends with zero
aggregated samples — the 5-field line does not match its 3-field schema —
while the 5-field reader (serialmonitor2.py) aggregates the sample but is
not stopped by the scan-complete line: a later data line is still
accepted. -/
theorem c6_counterexample :
    read_data_run scenarioLines [] = ([], false)
    ∧ (read_data_run scenarioLines []).1.length ≠ 1
    ∧ (read_scanner_data scenarioLines).pointsList.length = 1
    ∧ (read_scanner_data (scenarioLines ++ ["1,2,3,4,5".toList])).pointsList.length = 2 := by
  refine ⟨by decide, by decide, by decide, by decide⟩

/-- Claim C6 (corrected): in the test4.py session, a line carrying the
scan-complete message (and no initializer status word) transitions the
scanning state to completed and stops reading; on the scenario lines that
session ends completed with zero samples, while the 5-field reader
aggregates exactly one sample from them without being stopped. -/
theorem c6_amended :
    (∀ (pts : List P3) (l : List Char),
        t4StatusWords.any (fun m => containsStr m l) = false →
        containsStr ("Scan complete".toList) l = true →
        read_data_step pts l = (pts, false))
    ∧ read_data_run scenarioLines [] = ([], false)
    ∧ (read_scanner_data scenarioLines).pointsList.length = 1 := by
  refine ⟨?_, by decide, by decide⟩
  intro pts l hs hc
  have hcl : t4Classify l = T4Line.completeMsg := by
    simp [t4Classify, hs, hc]
    intro h2
    exact absurd hc (by simpa using h2)
  simp [read_data_step, hcl]

/-- Witness for C6 at the literal scan-complete line. -/
theorem c6_witness :
    read_data_step [] ("Scan complete!".toList) = ([], false) :=
  c6_amended.1 [] _ (by decide) (by decide)

/-- Claim C7 (confirmed): over any accepted sample sequence, the flat list
is the points in arrival order; each vertical-angle group (exact-equality
key) is precisely the points of the samples with that angle, in the same
relative order — a sublist of the flat sequence; the flat length is the
sum of all group lengths plus zero, the count of angle-less samples on
this 5-field path; and a single accept only ever appends to the flat
list, the raw log, and the touched group. -/
theorem c7_grouping_invariant :
    ∀ samples : List Raw5,
      (samples.foldl accept initAgg).pointsList
          = samples.map (fun s => (s.x, s.y, s.z))
      ∧ (samples.foldl accept initAgg).rawData = samples
      ∧ (∀ va, groupLookup (samples.foldl accept initAgg).pointsByAngle va
          = (samples.filter (fun s => decide (s.va = va))).map (fun s => (s.x, s.y, s.z)))
      ∧ (∀ va, (groupLookup (samples.foldl accept initAgg).pointsByAngle va).Sublist
            (samples.foldl accept initAgg).pointsList)
      ∧ (samples.foldl accept initAgg).pointsList.length
          = groupSizes (samples.foldl accept initAgg).pointsByAngle + 0
      ∧ (∀ (st : AggState) (s : Raw5),
            st.pointsList <+: (accept st s).pointsList
          ∧ st.rawData <+: (accept st s).rawData
          ∧ ∀ va, groupLookup st.pointsByAngle va <+:
              groupLookup (accept st s).pointsByAngle va) := by
  intro samples
  refine ⟨?_, ?_, ?_, ?_, ?_, ?_⟩
  · simpa [initAgg] using foldl_accept_points samples initAgg
  · simpa [initAgg] using foldl_accept_raw samples initAgg
  · intro va
    simpa [initAgg, groupLookup] using foldl_accept_group samples initAgg va
  · intro va
    rw [foldl_accept_points samples initAgg, foldl_accept_group samples initAgg va]
    simp only [initAgg, groupLookup, List.nil_append]
    exact List.Sublist.map _ (List.filter_sublist samples)
  · rw [foldl_accept_points samples initAgg, foldl_accept_sizes samples initAgg]
    simp [initAgg, groupSizes]
  · intro st s
    refine ⟨?_, ?_, ?_⟩
    · exact List.prefix_append _ _
    · exact List.prefix_append _ _
    · intro va
      simp only [accept]
      rw [groupLookup_assocAppend]
      exact List.prefix_append _ _

/-- Counterexample to claim C8: a session terminated by an uncaught
transport fault after the data line `1,2,3,4` had been aggregated hands
the caller the propagated error, not the one accepted sample: the
serialmonitor read loops catch only the user interrupt. -/
theorem c8_counterexample :
    read_serial_data ["1,2,3,4".toList] SessionEnd.fault = Except.error ()
    ∧ (["1,2,3,4".toList].foldl serialLineStep []).length = 1 :=
  ⟨rfl, by decide⟩

/-- Claim C8 (corrected): a session ended by the user interrupt returns
exactly the samples aggregated from the lines read so far, and that
aggregate only ever grows as more lines are read — cancellation never
discards accepted samples; the test4.py device-failure termination
likewise retains all accepted points. (An uncaught transport fault,
however, propagates and loses them — see the counterexample.) -/
theorem c8_amended :
    (∀ lines : List (List Char),
        read_serial_data lines SessionEnd.interrupt
          = Except.ok (lines.foldl serialLineStep []))
    ∧ (∀ (lines : List (List Char)) (n m : ℕ), n ≤ m →
        ((lines.take n).foldl serialLineStep []) <+:
          ((lines.take m).foldl serialLineStep []))
    ∧ (∀ (pts : List P3) (l : List Char), t4Classify l = T4Line.failedMsg →
        read_data_step pts l = (pts, false)) := by
  refine ⟨fun lines => rfl, ?_, ?_⟩
  · intro lines n m hnm
    have : lines.take m = lines.take n ++ ((lines.drop n).take (m - n)) := by
      rw [← List.take_add]
      congr 1
      omega
    rw [this, List.foldl_append]
    exact foldl_serialLineStep_extends _ _
  · intro pts l h
    simp [read_data_step, h]

/-- Witness for C8: one more line read extends the returned points, and a
failure line stops the test4.py session keeping its points. -/
theorem c8_witness :
    ((["1,2,3,4".toList, "5,6,7,8".toList].take 1).foldl serialLineStep []) <+:
      ((["1,2,3,4".toList, "5,6,7,8".toList].take 2).foldl serialLineStep [])
    ∧ read_data_step [] ("Failed to initialize".toList) = ([], false) :=
  ⟨c8_amended.2.1 _ 1 2 (by decide), c8_amended.2.2 [] _ (by decide)⟩

/-- Claim C9 (confirmed): reconstruction from a missing or unreadable file
yields the empty collection; once reading, a non-blank comma-bearing line
after the raw-data marker that does not evaluate to a 5-tuple makes the
whole call return the empty collection — accumulated samples discarded,
never partial — and a concrete file with one good tuple followed by
garbage indeed reconstructs to the empty collection, with the condition
surfaced as a caught error, not an exception. -/
theorem c9_reconstruction_errors :
    (∀ e : Unit, read_points_from_file (Except.error e) = [])
    ∧ (∀ (l : List Char) (ls : List (List Char)) (acc : List (ℝ × ℝ × ℝ × ℝ)),
        containsStr rawMarker l = false →
        (pyStrip l).isEmpty = false →
        l.contains ',' = true →
        (∀ xs, parseTupleLine l = some xs → xs.length ≠ 5) →
        readPointsLoop (l :: ls) true acc = [])
    ∧ read_points_from_file (Except.ok
        ["=== Raw Data (x, y, z, vertical_angle, vertical_distance) ===".toList,
         "(5.0, 0.0, 0.0, 0.0, 99.0)".toList,
         "junk line, not a tuple".toList]) = [] := by
  refine ⟨fun e => rfl, ?_, by rfl⟩
  intro l ls acc hm hne hcomma hbad
  have hc2 : ',' ∈ l := by simpa using hcomma
  rcases hp : parseTupleLine l with _ | xs
  · simp [readPointsLoop, hm, hne, hc2, hp]
  · have hlen := hbad xs hp
    rcases xs with _ | ⟨a, _ | ⟨b, _ | ⟨c, _ | ⟨d, _ | ⟨e, _ | ⟨f, rest⟩⟩⟩⟩⟩⟩ <;>
      simp_all [readPointsLoop, hm, hne, hc2, hp]

/-- Witness for C9 at a garbage line inside the raw-data section. -/
theorem c9_witness :
    readPointsLoop ["junk line, not a tuple".toList] true [] = [] :=
  c9_reconstruction_errors.2.1 _ [] [] (by decide) (by decide) (by decide)
    (fun xs hx => by
      rw [show parseTupleLine ("junk line, not a tuple".toList) = none from by decide] at hx
      cases hx)

/-- Claim C10 (confirmed): on the 4-field capture path, any line with
exactly 4 comma-separated all-float fields is accepted — whatever text
shape it has — and every other line is skipped; each line either appends
one sample or changes nothing, and the session is ended only by the
external stop, never by a line. -/
theorem c10_four_field_path :
    (∀ (pts : List S4) (l : List Char) (s : S4),
        (splitComma l).length = 4 → parse4 (splitComma l) = some s →
        serialLineStep pts l = pts ++ [s])
    ∧ (∀ (pts : List S4) (l : List Char),
        (splitComma l).length ≠ 4 → serialLineStep pts l = pts)
    ∧ (∀ (pts : List S4) (l : List Char),
        parse4 (splitComma l) = none → serialLineStep pts l = pts)
    ∧ (∀ (pts : List S4) (l : List Char),
        serialLineStep pts l = pts ∨ ∃ s, serialLineStep pts l = pts ++ [s])
    ∧ (∀ lines : List (List Char), ∃ pts,
        read_serial_data lines SessionEnd.interrupt = Except.ok pts) := by
  refine ⟨?_, ?_, ?_, ?_, fun lines => ⟨_, rfl⟩⟩
  · intro pts l s hlen hp
    have hne : l ≠ [] := by
      intro h
      rw [h] at hlen
      simp [splitComma] at hlen
    simp [serialLineStep, hne, hlen, hp]
  · intro pts l hlen
    by_cases he : l = []
    · simp [serialLineStep, he]
    · simp [serialLineStep, he, hlen]
  · intro pts l hp
    by_cases he : l = []
    · simp [serialLineStep, he]
    · by_cases hlen : (splitComma l).length = 4
      · simp [serialLineStep, he, hlen, hp]
      · simp [serialLineStep, he, hlen]
  · intro pts l
    by_cases he : l = []
    · left; simp [serialLineStep, he]
    · by_cases hlen : (splitComma l).length = 4
      · rcases hp : parse4 (splitComma l) with _ | s
        · left; simp [serialLineStep, he, hlen, hp]
        · right; exact ⟨s, by simp [serialLineStep, he, hlen, hp]⟩
      · left; simp [serialLineStep, he, hlen]

/-- Witness for C10: a banner-shaped all-float 4-field line is accepted;
a 2-field line and a line with a non-float field are skipped. -/
theorem c10_witness :
    serialLineStep [] ("1,2,3,4".toList) =
      [] ++ [((PyVal.num 1, PyVal.num 2, PyVal.num 3, PyVal.num 4) : S4)]
    ∧ serialLineStep [] ("a,b".toList) = []
    ∧ serialLineStep [] ("1,a,2,3".toList) = [] :=
  ⟨c10_four_field_path.1 [] _ _ (by decide) (by decide),
   c10_four_field_path.2.1 [] _ (by decide),
   c10_four_field_path.2.2.1 [] _ (by decide)⟩
